import Mathlib

/-!
# Verification of the go-civitai-sdk core against its specification

This file gives a shallow embedding, in Lean 4, of the two core subsystems of
the `go-civitai-sdk` repository:

* the AIR identifier mini-language (`ParseAIR`, `String()`, `Validate`,
  `Equal`) from the AIR source file, and
* the resilient request pipeline (`isRetryableError`, `isRetryableStatusCode`,
  `calculateBackoffDelay`, `doRequest`, `handleResponse`) from `client.go`,

together with theorems settling the frozen claims about them.

Strings are modelled as Lean `String` / `List Char` (Go strings are byte
slices; every input considered here is plain ASCII, where the two coincide).
Durations and floating-point arithmetic are modelled over `ℚ` (exact
arithmetic, as the numerical claim itself specifies).  External collaborators
(the HTTP transport, the gzip decompressor, the shape of a decode target) are
modelled as explicit parameters, since their code is not part of this
repository; everything the repository itself computes is translated directly
from the Go source.
-/

namespace Civitai

/-! ## AIR identifiers

The Go source defines

```
var airRegex = regexp.MustCompile(
  `^urn:air:([^:]+):([^:]+):([^:]+):([^@]+)(?:@([^:.]+))?(?::([^.]+))?(?:\.(.+))?$`)
```

and `ParseAIR` takes the seven submatches of this anchored pattern.  Go's
`regexp` package documents that capture groups are chosen exactly as a
backtracking (leftmost-first, greedy) search would choose them.  We embed the
pattern as a deterministic parser that reproduces that search:

* the three `([^:]+):` groups cannot cross a `:`, so each is forced to be the
  (non-empty) run up to the next `:`;
* group 4 `([^@]+)` is greedy: the longest `@`-free prefix is tried first and
  shortened one character at a time (`shrink`) until the optional tail groups
  match;
* the optional tail `(?:@([^:.]+))?(?::([^.]+))?(?:\.(.+))?$` is
  deterministic once the start of the remainder is fixed: a remainder starting
  with `@` can only be consumed by the version group (whose `[^:.]+` body is
  forced to the maximal run), a remainder starting with `:` only by the layer
  group, a remainder starting with `.` only by the format group, and a
  non-empty remainder starting with any other character cannot be matched at
  all.  Shortening a maximal run can never help, because the character it
  gives back can start no group.
-/

/-- `(?:\.(.+))?$` — the optional format group at the end of the AIR pattern. -/
def matchFmt : List Char → Option (List Char)
  | [] => some []
  | '.' :: u => if u = [] then none else some u
  | _ => none

/-- `(?::([^.]+))?(?:\.(.+))?$` — optional layer group, then format group. -/
def matchLayerFmt : List Char → Option (List Char × List Char)
  | [] => some ([], [])
  | ':' :: u =>
    let l := u.takeWhile (fun c => c != '.')
    let r := u.dropWhile (fun c => c != '.')
    if l = [] then none else (matchFmt r).map (fun f => (l, f))
  | '.' :: u => if u = [] then none else some ([], u)
  | _ => none

/-- `(?:@([^:.]+))?(?::([^.]+))?(?:\.(.+))?$` — the whole optional tail of
the AIR pattern: version, layer and format groups. -/
def matchRest : List Char → Option (List Char × List Char × List Char)
  | '@' :: u =>
    let v := u.takeWhile (fun c => c != ':' && c != '.')
    let r := u.dropWhile (fun c => c != ':' && c != '.')
    if v = [] then none else (matchLayerFmt r).map (fun lf => (v, lf.1, lf.2))
  | r => (matchLayerFmt r).map (fun lf => ([], lf.1, lf.2))

/-- Greedy backtracking for the `([^@]+)` ID group: `idRev` is the reversed
candidate ID (longest first), `rest` the remainder offered to the tail
groups.  On failure the last ID character is given back to the remainder. -/
def shrink : List Char → List Char → Option (List Char × List Char × List Char × List Char)
  | [], _ => none
  | c :: idRev', rest =>
    match matchRest rest with
    | some (v, l, f) => some ((c :: idRev').reverse, v, l, f)
    | none => shrink idRev' (c :: rest)

/-- Groups 4–7 of the AIR pattern on the text after the third `:`. -/
def parseTail (t : List Char) : Option (List Char × List Char × List Char × List Char) :=
  shrink (t.takeWhile (fun c => c != '@')).reverse (t.dropWhile (fun c => c != '@'))

/-- A literal piece of the pattern (`urn:air:`). -/
def stripLit : List Char → List Char → Option (List Char)
  | [], cs => some cs
  | l :: ls, c :: cs => if c = l then stripLit ls cs else none
  | _ :: _, [] => none

/-- `([^:]+):` — a forced non-empty group up to the next `:`. -/
def splitColon (cs : List Char) : Option (List Char × List Char) :=
  let g := cs.takeWhile (fun c => c != ':')
  match cs.dropWhile (fun c => c != ':') with
  | ':' :: r' => if g = [] then none else some (g, r')
  | _ => none

/-- The full anchored AIR pattern: the seven submatches of `airRegex`, or
`none` when the pattern does not match. -/
def airRegexMatch (cs : List Char) :
    Option (List Char × List Char × List Char × List Char × List Char × List Char × List Char) := do
  let r0 ← stripLit "urn:air:".data cs
  let (e, r1) ← splitColon r0
  let (ty, r2) ← splitColon r1
  let (src, r3) ← splitColon r2
  let (id, v, l, f) ← parseTail r3
  pure (e, ty, src, id, v, l, f)

/-- The `AIR` struct.  Go's field `Type` is a reserved word in Lean, hence
`Type'`; all other field names are the source's. -/
structure AIR where
  Ecosystem : String
  Type' : String
  Source : String
  ID : String
  Version : String
  Layer : String
  Format : String
  Raw : String
  deriving DecidableEq, Repr

/-- Vocabulary checked by `IsValidEcosystem` in the source. -/
def validEcosystems : List String := ["sd1", "sd2", "sdxl", "gpt", "flux"]

/-- Vocabulary checked by `IsValidType` in the source. -/
def validTypes : List String := ["model", "lora", "embedding", "vae", "control"]

/-- Vocabulary checked by `IsValidSource` in the source. -/
def validSources : List String := ["civitai", "huggingface", "openai"]

/-- `IsValidEcosystem` from the source (linear scan of the fixed list). -/
def AIR.IsValidEcosystem (a : AIR) : Bool := validEcosystems.contains a.Ecosystem

/-- `IsValidType` from the source. -/
def AIR.IsValidType (a : AIR) : Bool := validTypes.contains a.Type'

/-- `IsValidSource` from the source. -/
def AIR.IsValidSource (a : AIR) : Bool := validSources.contains a.Source

/-- `Validate` from the source.  Go returns `error`; we return
`some errorMessage` for failure and `none` for success, with the source's
messages and check order. -/
def AIR.Validate (a : AIR) : Option String :=
  if a.Ecosystem = "" then some "ecosystem is required"
  else if a.Type' = "" then some "type is required"
  else if a.Source = "" then some "source is required"
  else if a.ID = "" then some "ID is required"
  else if ¬ a.IsValidEcosystem then some ("unsupported ecosystem: " ++ a.Ecosystem)
  else if ¬ a.IsValidType then some ("unsupported type: " ++ a.Type')
  else if ¬ a.IsValidSource then some ("unsupported source: " ++ a.Source)
  else none

/-- The three distinguishable error productions of `ParseAIR` in the source:
`errors.New("AIR string cannot be empty")`,
`fmt.Errorf("invalid AIR format: %s", airString)` and
`fmt.Errorf("invalid AIR: %w", err)`. -/
inductive AIRErr where
  | emptyInput : AIRErr
  | invalidFormat (s : String) : AIRErr
  | invalidAIR (msg : String) : AIRErr
  deriving DecidableEq, Repr

/-- `ParseAIR` from the source: empty-input check, anchored pattern match,
struct construction (with `Raw` set to the input), then `Validate`. -/
def ParseAIR (s : String) : Except AIRErr AIR :=
  if s = "" then .error .emptyInput
  else
    match airRegexMatch s.data with
    | none => .error (.invalidFormat s)
    | some (e, ty, src, id, v, l, f) =>
      let air : AIR :=
        ⟨String.mk e, String.mk ty, String.mk src, String.mk id,
         String.mk v, String.mk l, String.mk f, s⟩
      match air.Validate with
      | some msg => .error (.invalidAIR msg)
      | none => .ok air

/-- The `String()` method of `AIR` from the source: the mandatory fields
joined by the fixed grammar, then `@version`, `:layer`, `.format` appended
exactly when non-empty, in that order. -/
def AIR.toAIRString (a : AIR) : String :=
  "urn:air:" ++ a.Ecosystem ++ ":" ++ a.Type' ++ ":" ++ a.Source ++ ":" ++ a.ID
    ++ (if a.Version ≠ "" then "@" ++ a.Version else "")
    ++ (if a.Layer ≠ "" then ":" ++ a.Layer else "")
    ++ (if a.Format ≠ "" then "." ++ a.Format else "")

/-- The `Equal` method from the source: field-wise comparison of the seven
grammar fields (`Raw` is not compared). -/
def AIR.Equal (a other : AIR) : Bool :=
  a.Ecosystem == other.Ecosystem &&
  a.Type' == other.Type' &&
  a.Source == other.Source &&
  a.ID == other.ID &&
  a.Version == other.Version &&
  a.Layer == other.Layer &&
  a.Format == other.Format



/-! ## The request pipeline (`client.go`)

The HTTP transport is external to the repository: each attempt's outcome
(either a response with a status code, or a Go `error`) is therefore a
parameter of the model, indexed by attempt number, as is the caller's
cancellation signal (whether `ctx.Done()` fires during the backoff wait that
follows a given attempt).  Everything the repository computes from those
outcomes — retry classification, the loop structure, the error wrapping — is
translated from `client.go`. -/

/-- A Go `error` value as observed by `doRequest` / `isRetryableError`:
`context.DeadlineExceeded`, `context.Canceled`, the loop's own
`fmt.Errorf("HTTP %d: %s", ...)`, or any other transport error (identified
by its `Error()` message, which is all `isRetryableError` inspects). -/
inductive GoError where
  | deadlineExceeded : GoError
  | canceled : GoError
  | httpStatus (code : Nat) : GoError
  | other (msg : String) : GoError
  deriving DecidableEq, Repr

/-- `http.StatusText` for the codes this development mentions (the Go
standard-library table, restricted; unknown codes give `""` as in Go). -/
def statusText (code : Nat) : String :=
  if code = 404 then "Not Found"
  else if code = 429 then "Too Many Requests"
  else if code = 500 then "Internal Server Error"
  else if code = 502 then "Bad Gateway"
  else if code = 503 then "Service Unavailable"
  else if code = 504 then "Gateway Timeout"
  else ""

/-- The `Error()` message of a modelled Go error. -/
def GoError.message : GoError → String
  | .deadlineExceeded => "context deadline exceeded"
  | .canceled => "context canceled"
  | .httpStatus code => "HTTP " ++ toString code ++ ": " ++ statusText code
  | .other msg => msg

/-- Go `strings.Contains`: `sub` occurs contiguously in `s`. -/
def strContains (s sub : String) : Bool := decide (sub.data <:+: s.data)

/-- `isRetryableError` from the source: identity checks against
`context.DeadlineExceeded` / `context.Canceled` first, then substring checks
on the error message.  (The source's initial `err == nil` check has no
counterpart here because the model has no nil error.) -/
def isRetryableError (e : GoError) : Bool :=
  match e with
  | .deadlineExceeded => true
  | .canceled => false
  | e =>
    let errStr := e.message
    strContains errStr "timeout" ||
    strContains errStr "connection refused" ||
    strContains errStr "no such host" ||
    strContains errStr "temporary failure" ||
    strContains errStr "network is unreachable" ||
    strContains errStr "connection reset"

/-- `isRetryableStatusCode` from the source (`http.StatusTooManyRequests`,
`http.StatusInternalServerError`, `http.StatusBadGateway`,
`http.StatusServiceUnavailable`, `http.StatusGatewayTimeout`). -/
def isRetryableStatusCode (statusCode : Nat) : Bool :=
  statusCode == 429 ||
  statusCode == 500 ||
  statusCode == 502 ||
  statusCode == 503 ||
  statusCode == 504

/-- The outcome of one call to `c.httpClient.Do(req)`: a response carrying a
status code, or a transport error. -/
inductive AttemptResult where
  | resp (statusCode : Nat) : AttemptResult
  | err (e : GoError) : AttemptResult
  deriving DecidableEq, Repr

/-- The possible returns of `doRequest`:
a response with a nil error (`success`);
`fmt.Errorf("failed to execute request: %w", err)` for a non-retryable
transport error (`requestFailed`);
`ctx.Err()` when cancellation fires during the backoff wait (`ctxDone`);
`fmt.Errorf("failed to execute request after %d attempts: %w", c.maxRetries+1,
lastErr)` when the loop exhausts its attempts (`exhausted`). -/
inductive DoResult where
  | success (statusCode : Nat) : DoResult
  | requestFailed (e : GoError) : DoResult
  | ctxDone : DoResult
  | exhausted (attempts : Nat) (last : Option GoError) : DoResult
  deriving DecidableEq, Repr

/-- The retry loop of `doRequest`, from the top of iteration `attempt` with
accumulated `lastErr`, also counting the attempts actually made (`made`).
Mirrors `for attempt := 0; attempt <= c.maxRetries; attempt++` with the
in-loop structure of the source: a non-retryable status returns the response
at once; a retryable status closes the body and records the HTTP error; a
non-retryable transport error returns wrapped at once; before every
non-final iteration the backoff wait runs and the caller's cancellation,
when it fires there, returns `ctx.Err()`. -/
def doRequestFrom (outcome : Nat → AttemptResult) (cancelDuringWait : Nat → Bool)
    (maxRetries : Nat) (attempt : Nat) (lastErr : Option GoError) (made : Nat) :
    DoResult × Nat :=
  if _h : attempt ≤ maxRetries then
    match outcome attempt with
    | .resp code =>
      if isRetryableStatusCode code then
        if attempt < maxRetries then
          if cancelDuringWait attempt then (.ctxDone, made + 1)
          else doRequestFrom outcome cancelDuringWait maxRetries (attempt + 1)
            (some (.httpStatus code)) (made + 1)
        else doRequestFrom outcome cancelDuringWait maxRetries (attempt + 1)
          (some (.httpStatus code)) (made + 1)
      else (.success code, made + 1)
    | .err e =>
      if isRetryableError e then
        if attempt < maxRetries then
          if cancelDuringWait attempt then (.ctxDone, made + 1)
          else doRequestFrom outcome cancelDuringWait maxRetries (attempt + 1)
            (some e) (made + 1)
        else doRequestFrom outcome cancelDuringWait maxRetries (attempt + 1)
          (some e) (made + 1)
      else (.requestFailed e, made + 1)
  else (.exhausted (maxRetries + 1) lastErr, made)
termination_by maxRetries + 1 - attempt
decreasing_by all_goals omega

/-- `doRequest` from the source: the loop started at attempt 0 with no
recorded error, returning its result together with the number of attempts
performed. -/
def doRequest (maxRetries : Nat) (outcome : Nat → AttemptResult)
    (cancelDuringWait : Nat → Bool) : DoResult × Nat :=
  doRequestFrom outcome cancelDuringWait maxRetries 0 none 0

/-! ## Backoff calculation

`calculateBackoffDelay` uses Go `float64`; the numerical claim about it is
stated in exact arithmetic, so the model works over `ℚ`.  The jitter draw
`rand.Float64()` (uniform in `[0,1)`) is an explicit parameter `u`. -/

/-- The unclamped value of `calculateBackoffDelay`:
`delay := baseDelay * 2^attempt`, then
`jitter := delay * 0.25 * (2*rand.Float64() - 1)`, then `delay + jitter`. -/
def calculateBackoffDelayRaw (retryDelay : ℚ) (attempt : Nat) (u : ℚ) : ℚ :=
  let delay := retryDelay * 2 ^ attempt
  let jitter := delay * (1 / 4) * (2 * u - 1)
  delay + jitter

/-- `calculateBackoffDelay` from the source: the unclamped value, capped at
`c.maxRetryDelay` (`if delay > c.maxRetryDelay { delay = c.maxRetryDelay }`). -/
def calculateBackoffDelay (retryDelay maxRetryDelay : ℚ) (attempt : Nat) (u : ℚ) : ℚ :=
  let delay := calculateBackoffDelayRaw retryDelay attempt u
  if maxRetryDelay < delay then maxRetryDelay else delay

/-! ## Bounded response decoding (`handleResponse`)

`handleResponse` delegates JSON decoding to Go's `encoding/json`.
`json.Decoder.Decode` first reads one complete JSON value from the stream
(returning `io.EOF` when the stream holds only whitespace,
`io.ErrUnexpectedEOF` when it ends inside a value, and a syntax error for
malformed input) and only then unmarshals it into the target.  We model the
value reader concretely (`jsonDecodeValue`, a fuel-indexed scanner producing
a small JSON AST) and the target-dependent unmarshal step abstractly: for
the success path the target's shape is a parameter (`targetAccepts`), and
for the error path unmarshalling into `APIError` is modelled by extracting
the `code` and `message` string fields (Go ignores unknown object keys and
leaves absent fields at their zero value; a JSON `null` also leaves the
struct zeroed).  Simplifications that no theorem or witness depends on:
unescaped control characters inside string literals are accepted, `\u`
escapes are not combined into surrogate pairs, and type mismatches of
`APIError` fields other than `code`/`message` are not detected. -/

/-- A JSON value, as far as this development needs to distinguish them. -/
inductive JValue where
  | jnull : JValue
  | jbool (b : Bool) : JValue
  | jnum : JValue
  | jstr (s : List Char) : JValue
  | jarr (elems : List JValue) : JValue
  | jobj (fields : List (List Char × JValue)) : JValue

/-- The error classes of `json.Decoder.Decode` that `handleResponse`
distinguishes: `io.EOF`, `io.ErrUnexpectedEOF`, and everything else
(syntax and unmarshalling errors). -/
inductive DecErr where
  | eof : DecErr
  | unexpEof : DecErr
  | badInput : DecErr
  deriving DecidableEq, Repr

/-- JSON insignificant whitespace. -/
def isWsChar (c : Char) : Bool := c == ' ' || c == '\t' || c == '\n' || c == '\r'

/-- Skip insignificant whitespace. -/
def skipWs (cs : List Char) : List Char := cs.dropWhile isWsChar

/-- Expect the tail of a keyword literal (`null`, `true`, `false`). -/
def expectLit : List Char → List Char → Except DecErr (List Char)
  | [], cs => .ok cs
  | _ :: _, [] => .error .unexpEof
  | l :: ls, c :: cs => if c = l then expectLit ls cs else .error .badInput

/-- Decode a single-character string escape. -/
def escChar (c : Char) : Option Char :=
  if c = '"' then some '"'
  else if c = '\\' then some '\\'
  else if c = '/' then some '/'
  else if c = 'b' then some (Char.ofNat 8)
  else if c = 'f' then some (Char.ofNat 12)
  else if c = 'n' then some '\n'
  else if c = 'r' then some '\r'
  else if c = 't' then some '\t'
  else none

/-- Value of a hexadecimal digit. -/
def hexVal (c : Char) : Option Nat :=
  if c.isDigit then some (c.toNat - 48)
  else if 'a' ≤ c ∧ c ≤ 'f' then some (c.toNat - 87)
  else if 'A' ≤ c ∧ c ≤ 'F' then some (c.toNat - 55)
  else none

/-- The body of a JSON string literal after the opening quote: the decoded
contents and the remainder after the closing quote. -/
def parseStringBody : List Char → Except DecErr (List Char × List Char)
  | [] => .error .unexpEof
  | '"' :: r => .ok ([], r)
  | '\\' :: r =>
    match r with
    | [] => .error .unexpEof
    | 'u' :: r' =>
      match r' with
      | h1 :: h2 :: h3 :: h4 :: r2 =>
        match hexVal h1, hexVal h2, hexVal h3, hexVal h4 with
        | some a, some b, some c, some d =>
          match parseStringBody r2 with
          | .ok (s, rest) => .ok (Char.ofNat (((a * 16 + b) * 16 + c) * 16 + d) :: s, rest)
          | .error e => .error e
        | _, _, _, _ => .error .badInput
      | _ => .error .unexpEof
    | e :: r' =>
      match escChar e with
      | some c =>
        match parseStringBody r' with
        | .ok (s, rest) => .ok (c :: s, rest)
        | .error er => .error er
      | none => .error .badInput
  | c :: r =>
    match parseStringBody r with
    | .ok (s, rest) => .ok (c :: s, rest)
    | .error e => .error e

/-- Exponent digits (after `e`/`E`, with optional sign). -/
def parseExpDigits (r : List Char) : Except DecErr (List Char) :=
  let r' := match r with
    | '+' :: t => t
    | '-' :: t => t
    | _ => r
  if r'.takeWhile Char.isDigit = [] then
    if r' = [] then .error .unexpEof else .error .badInput
  else .ok (r'.dropWhile Char.isDigit)

/-- Optional exponent part of a number. -/
def parseExpPart (r : List Char) : Except DecErr (List Char) :=
  match r with
  | 'e' :: r2 => parseExpDigits r2
  | 'E' :: r2 => parseExpDigits r2
  | _ => .ok r

/-- Optional fraction part then optional exponent part of a number. -/
def parseFracExp (r : List Char) : Except DecErr (List Char) :=
  match r with
  | '.' :: r2 =>
    if r2.takeWhile Char.isDigit = [] then
      if r2 = [] then .error .unexpEof else .error .badInput
    else parseExpPart (r2.dropWhile Char.isDigit)
  | _ => parseExpPart r

/-- A JSON number token (optional minus, integer part `0` or nonzero-led
digits, optional fraction, optional exponent); the token ends at the first
character that cannot extend it, as Go's scanner ends it. -/
def parseNumber (cs : List Char) : Except DecErr (List Char) :=
  let cs1 := match cs with
    | '-' :: r => r
    | _ => cs
  match cs1 with
  | [] => .error .unexpEof
  | c :: rest =>
    if ¬ c.isDigit then .error .badInput
    else if c = '0' then parseFracExp rest
    else parseFracExp (cs1.dropWhile Char.isDigit)

mutual

/-- One JSON value starting at the (non-blank) head of the input; returns
the value and the unconsumed remainder. -/
def parseVal : Nat → List Char → Except DecErr (JValue × List Char)
  | 0, _ => .error .badInput
  | _ + 1, [] => .error .unexpEof
  | fuel + 1, c :: r =>
    if c = 'n' then (expectLit "ull".data r).map (fun rest => (.jnull, rest))
    else if c = 't' then (expectLit "rue".data r).map (fun rest => (.jbool true, rest))
    else if c = 'f' then (expectLit "alse".data r).map (fun rest => (.jbool false, rest))
    else if c = '"' then (parseStringBody r).map (fun p => (.jstr p.1, p.2))
    else if c = '[' then
      match skipWs r with
      | ']' :: rest => .ok (.jarr [], rest)
      | r2 => parseElems fuel r2 []
    else if c = '{' then
      match skipWs r with
      | '}' :: rest => .ok (.jobj [], rest)
      | r2 => parseMembers fuel r2 []
    else if c = '-' ∨ c.isDigit then (parseNumber (c :: r)).map (fun rest => (.jnum, rest))
    else .error .badInput

/-- Array elements after the opening bracket (non-empty case). -/
def parseElems : Nat → List Char → List JValue → Except DecErr (JValue × List Char)
  | 0, _, _ => .error .badInput
  | fuel + 1, cs, acc =>
    match parseVal fuel cs with
    | .error e => .error e
    | .ok (v, r) =>
      match skipWs r with
      | ',' :: r2 => parseElems fuel (skipWs r2) (acc ++ [v])
      | ']' :: r2 => .ok (.jarr (acc ++ [v]), r2)
      | [] => .error .unexpEof
      | _ => .error .badInput

/-- Object members after the opening brace (non-empty case). -/
def parseMembers : Nat → List Char → List (List Char × JValue) →
    Except DecErr (JValue × List Char)
  | 0, _, _ => .error .badInput
  | fuel + 1, cs, acc =>
    match cs with
    | '"' :: r =>
      match parseStringBody r with
      | .error e => .error e
      | .ok (key, r1) =>
        match skipWs r1 with
        | ':' :: r2 =>
          match parseVal fuel (skipWs r2) with
          | .error e => .error e
          | .ok (v, r3) =>
            match skipWs r3 with
            | ',' :: r4 => parseMembers fuel (skipWs r4) (acc ++ [(key, v)])
            | '}' :: r4 => .ok (.jobj (acc ++ [(key, v)]), r4)
            | [] => .error .unexpEof
            | _ => .error .badInput
        | [] => .error .unexpEof
        | _ => .error .badInput
    | [] => .error .unexpEof
    | _ => .error .badInput

end

/-- The value-reading phase of one `json.Decoder.Decode` call: skip
whitespace; an exhausted stream is `io.EOF`; otherwise read one complete
JSON value (data after it stays in the decoder's buffer). -/
def jsonDecodeValue (cs : List Char) : Except DecErr JValue :=
  match skipWs cs with
  | [] => .error .eof
  | c :: r =>
    match parseVal (2 * cs.length + 2) (c :: r) with
    | .ok (v, _rest) => .ok v
    | .error e => .error e

/-- The last JSON object member with the given key (later duplicate keys
overwrite earlier ones in `encoding/json`). -/
def lastField (fields : List (List Char × JValue)) (name : List Char) : Option JValue :=
  ((fields.filter (fun p => p.1 == name)).getLast?).map (fun p => p.2)

/-- Unmarshal one object member into a Go `string` field: absent keeps the
zero value, a JSON string is taken verbatim, anything else is an
`UnmarshalTypeError`. -/
def decodeStrField : Option JValue → Option (List Char)
  | none => some []
  | some (.jstr s) => some s
  | some _ => none

/-- Unmarshal a decoded JSON value into the `APIError` struct (fields
`Code` and `Message`, json tags `code` and `message`): `some (code, message)`
on success, `none` for an unmarshalling error. -/
def unmarshalAPIError : JValue → Option (String × String)
  | .jnull => some ("", "")
  | .jobj fields => do
    let c ← decodeStrField (lastField fields "code".data)
    let m ← decodeStrField (lastField fields "message".data)
    pure (String.mk c, String.mk m)
  | _ => none

/-- `json.NewDecoder(limitedReader).Decode(&apiErr)` of the non-2xx branch:
read one JSON value, then unmarshal it into `APIError`. -/
def decodeAPIError (cs : List Char) : Option (String × String) :=
  match jsonDecodeValue cs with
  | .ok v => unmarshalAPIError v
  | .error _ => none

/-- The outcomes of `handleResponse`:
`nil` (`success`); `fmt.Errorf("failed to create gzip reader: %w", err)`
(`gzipError`); `fmt.Errorf("API error [%s]: %s", apiErr.Code, apiErr.Message)`
(`apiError`); `fmt.Errorf("API request failed with status %d: %s", ...)`
(`statusFallback`); `fmt.Errorf("response size exceeded maximum allowed size
of %d bytes", c.maxResponseSize)` (`sizeExceeded`); and
`fmt.Errorf("failed to decode response: %w", err)` (`decodeFailed`). -/
inductive HandleResult where
  | success : HandleResult
  | gzipError : HandleResult
  | apiError (code msg : String) : HandleResult
  | statusFallback (status : Nat) : HandleResult
  | sizeExceeded (maxSize : Nat) : HandleResult
  | decodeFailed : HandleResult
  deriving DecidableEq, Repr

/-- `handleResponse` from the source.  `gzipEncoded` models
`resp.Header.Get("Content-Encoding") == "gzip"`; `gunzip` is the external
`compress/gzip` reader (`none` models a failure to create it); the
`io.LimitReader` ceiling is `List.take maxResponseSize` applied to the
(possibly decompressed) stream; `targetAccepts` is `none` when `target` is
nil and otherwise tells whether the scanned JSON value unmarshals into the
target without error. -/
def handleResponse (maxResponseSize : Nat) (gzipEncoded : Bool)
    (gunzip : List Char → Option (List Char)) (status : Nat) (body : List Char)
    (targetAccepts : Option (JValue → Bool)) : HandleResult :=
  match (if gzipEncoded then gunzip body else some body) with
  | none => .gzipError
  | some stream =>
    let limited := stream.take maxResponseSize
    if status < 200 ∨ 300 ≤ status then
      match decodeAPIError limited with
      | some (c, m) => .apiError c m
      | none => .statusFallback status
    else
      match targetAccepts with
      | none => .success
      | some accepts =>
        match jsonDecodeValue limited with
        | .error .eof => .sizeExceeded maxResponseSize
        | .error .unexpEof => .sizeExceeded maxResponseSize
        | .error .badInput => .decodeFailed
        | .ok v => if accepts v then .success else .decodeFailed

/-! ## Helper definitions for stating the claims -/

/-- An attempt outcome that `doRequest` classifies as retryable: a response
whose status is retryable, or a transport error that is retryable. -/
def retryableOutcome : AttemptResult → Bool
  | .resp code => isRetryableStatusCode code
  | .err e => isRetryableError e

/-- The failure `doRequest` records in `lastErr` for a given attempt
outcome: the synthesized `HTTP <code>` error for a retryable status, or
the transport error itself. -/
def errOf : AttemptResult → GoError
  | .resp code => .httpStatus code
  | .err e => e

/-- The serialized form of the optional version group (`@v` when present). -/
def optV (v : List Char) : List Char := if v = [] then [] else '@' :: v

/-- The serialized form of the optional layer group (`:l` when present). -/
def optL (l : List Char) : List Char := if l = [] then [] else ':' :: l

/-- The serialized form of the optional format group (`.f` when present). -/
def optF (f : List Char) : List Char := if f = [] then [] else '.' :: f

/-! ## Theorems -/

/-- **C7.** For every attempt and every jitter draw `u ∈ [0,1)`
(`rand.Float64()`), the backoff value before clamping lies in
`[max(0, base·2^attempt·0.75), base·2^attempt·1.25]` (exact arithmetic),
and the value returned after clamping never exceeds `maxRetryDelay`. -/
theorem calculateBackoffDelay_bounds (retryDelay maxRetryDelay : ℚ) (attempt : Nat)
    (u : ℚ) (hrd : 0 ≤ retryDelay) (hu0 : 0 ≤ u) (hu1 : u < 1) :
    max 0 (retryDelay * 2 ^ attempt * (3 / 4)) ≤ calculateBackoffDelayRaw retryDelay attempt u ∧
    calculateBackoffDelayRaw retryDelay attempt u ≤ retryDelay * 2 ^ attempt * (5 / 4) ∧
    calculateBackoffDelay retryDelay maxRetryDelay attempt u ≤ maxRetryDelay := by
  have hd : (0 : ℚ) ≤ retryDelay * 2 ^ attempt := by positivity
  unfold calculateBackoffDelay calculateBackoffDelayRaw
  refine ⟨?_, ?_, ?_⟩
  · have h1 : retryDelay * 2 ^ attempt * (3 / 4) ≤
        retryDelay * 2 ^ attempt + retryDelay * 2 ^ attempt * (1 / 4) * (2 * u - 1) := by
      nlinarith [mul_nonneg hd hu0]
    have h0 : (0 : ℚ) ≤
        retryDelay * 2 ^ attempt + retryDelay * 2 ^ attempt * (1 / 4) * (2 * u - 1) := by
      nlinarith [mul_nonneg hd hu0]
    simpa using max_le h0 h1
  · nlinarith [mul_nonneg hd hu0]
  · dsimp only
    split
    · exact le_refl _
    · linarith [not_lt.mp (by assumption :
        ¬ maxRetryDelay < retryDelay * 2 ^ attempt +
          retryDelay * 2 ^ attempt * (1 / 4) * (2 * u - 1))]

/-- Witness for C7 at `baseDelay = 1`, `maxDelay = 100`, `attempt = 2`,
jitter draw `u = 1/2`. -/
theorem calculateBackoffDelay_bounds_witness :
    max 0 ((1 : ℚ) * 2 ^ 2 * (3 / 4)) ≤ calculateBackoffDelayRaw 1 2 (1 / 2) ∧
    calculateBackoffDelayRaw 1 2 (1 / 2) ≤ (1 : ℚ) * 2 ^ 2 * (5 / 4) ∧
    calculateBackoffDelay 1 100 2 (1 / 2) ≤ 100 :=
  calculateBackoffDelay_bounds 1 100 2 (1 / 2) (by norm_num) (by norm_num) (by norm_num)


theorem doRequestFrom_done (outcome : Nat → AttemptResult) (cancels : Nat → Bool)
    (maxRetries attempt : Nat) (lastErr : Option GoError) (made : Nat)
    (h : maxRetries < attempt) :
    doRequestFrom outcome cancels maxRetries attempt lastErr made =
      (.exhausted (maxRetries + 1) lastErr, made) := by
  rw [doRequestFrom]
  simp [Nat.not_le.mpr h]

theorem doRequestFrom_step (outcome : Nat → AttemptResult) (cancels : Nat → Bool)
    (maxRetries attempt : Nat) (lastErr : Option GoError) (made : Nat)
    (h : attempt ≤ maxRetries) (hr : retryableOutcome (outcome attempt) = true)
    (hc : attempt < maxRetries → cancels attempt = false) :
    doRequestFrom outcome cancels maxRetries attempt lastErr made =
      doRequestFrom outcome cancels maxRetries (attempt + 1)
        (some (errOf (outcome attempt))) (made + 1) := by
  rw [doRequestFrom]
  simp only [h, dite_true, dif_pos]
  cases ho : outcome attempt with
  | resp code =>
    have : isRetryableStatusCode code = true := by
      simpa [retryableOutcome, ho] using hr
    simp [this, errOf, ho]
    by_cases hlt : attempt < maxRetries
    · simp [hlt, hc hlt]
    · simp [hlt]
  | err e =>
    have : isRetryableError e = true := by
      simpa [retryableOutcome, ho] using hr
    simp [this, errOf, ho]
    by_cases hlt : attempt < maxRetries
    · simp [hlt, hc hlt]
    · simp [hlt]

theorem doRequestFrom_exhausts (outcome : Nat → AttemptResult) (cancels : Nat → Bool)
    (maxRetries : Nat) :
    ∀ (n attempt : Nat) (lastErr : Option GoError) (made : Nat),
      maxRetries + 1 - attempt = n → attempt ≤ maxRetries →
      (∀ i, attempt ≤ i → i ≤ maxRetries → retryableOutcome (outcome i) = true) →
      (∀ i, attempt ≤ i → i < maxRetries → cancels i = false) →
      doRequestFrom outcome cancels maxRetries attempt lastErr made =
        (.exhausted (maxRetries + 1) (some (errOf (outcome maxRetries))), made + n) := by
  intro n
  induction n with
  | zero => intro attempt _ _ hn hle _ _; omega
  | succ n ih =>
    intro attempt lastErr made hn hle hr hc
    rw [doRequestFrom_step outcome cancels maxRetries attempt lastErr made hle
      (hr attempt le_rfl hle) (fun hlt => hc attempt le_rfl hlt)]
    by_cases h : attempt = maxRetries
    · subst h
      have hn0 : n = 0 := by omega
      subst hn0
      rw [doRequestFrom_done _ _ _ _ _ _ (Nat.lt_succ_self _)]
    · have hlt : attempt + 1 ≤ maxRetries := by omega
      have := ih (attempt + 1) (some (errOf (outcome attempt))) (made + 1) (by omega) hlt
        (fun i hi hi2 => hr i (by omega) hi2) (fun i hi hi2 => hc i (by omega) hi2)
      rw [this]
      have : made + 1 + n = made + (n + 1) := by omega
      rw [this]
theorem doRequestFrom_reach (outcome : Nat → AttemptResult) (cancels : Nat → Bool)
    (maxRetries : Nat) :
    ∀ (n attempt j : Nat) (lastErr : Option GoError) (made : Nat),
      j - attempt = n → attempt ≤ j → j ≤ maxRetries →
      (∀ i, attempt ≤ i → i < j → retryableOutcome (outcome i) = true) →
      (∀ i, attempt ≤ i → i < j → cancels i = false) →
      ∃ lastErr', doRequestFrom outcome cancels maxRetries attempt lastErr made =
        doRequestFrom outcome cancels maxRetries j lastErr' (made + n) := by
  intro n
  induction n with
  | zero =>
    intro attempt j lastErr made hn hle _ _ _
    have : j = attempt := by omega
    subst this
    exact ⟨lastErr, rfl⟩
  | succ n ih =>
    intro attempt j lastErr made hn hle hj hr hc
    have h1 : attempt < j := by omega
    rw [doRequestFrom_step outcome cancels maxRetries attempt lastErr made (by omega)
      (hr attempt le_rfl h1) (fun _ => hc attempt le_rfl h1)]
    obtain ⟨le', h⟩ := ih (attempt + 1) j (some (errOf (outcome attempt))) (made + 1)
      (by omega) (by omega) hj (fun i hi hi2 => hr i (by omega) hi2)
      (fun i hi hi2 => hc i (by omega) hi2)
    refine ⟨le', ?_⟩
    rw [h]
    have : made + 1 + n = made + (n + 1) := by omega
    rw [this]

theorem doRequestFrom_success (outcome : Nat → AttemptResult) (cancels : Nat → Bool)
    (maxRetries attempt : Nat) (lastErr : Option GoError) (made : Nat) (code : Nat)
    (h : attempt ≤ maxRetries) (ho : outcome attempt = .resp code)
    (hnr : isRetryableStatusCode code = false) :
    doRequestFrom outcome cancels maxRetries attempt lastErr made =
      (.success code, made + 1) := by
  rw [doRequestFrom]
  simp [h, ho, hnr]

theorem doRequestFrom_cancel (outcome : Nat → AttemptResult) (cancels : Nat → Bool)
    (maxRetries attempt : Nat) (lastErr : Option GoError) (made : Nat)
    (h : attempt < maxRetries) (hr : retryableOutcome (outcome attempt) = true)
    (hcanc : cancels attempt = true) :
    doRequestFrom outcome cancels maxRetries attempt lastErr made =
      (.ctxDone, made + 1) := by
  rw [doRequestFrom]
  simp only [Nat.le_of_lt h, dite_true, dif_pos]
  cases ho : outcome attempt with
  | resp code =>
    have : isRetryableStatusCode code = true := by
      simpa [retryableOutcome, ho] using hr
    simp [this, h, hcanc]
  | err e =>
    have : isRetryableError e = true := by
      simpa [retryableOutcome, ho] using hr
    simp [this, h, hcanc]
/-- **C1.** For every retry policy with `maxRetries = N ≥ 0`, when every
attempt ends in a retryable outcome (retryable status code or retryable
transport error) and the caller never cancels, `doRequest` performs exactly
`N + 1` attempts and returns the single retries-exhausted error, whose
attempt count is `N + 1` (`maxRetries + 1` in the source message) and which
wraps the last observed failure (the `HTTP <code>` error for a retryable
status, or the transport error itself). -/
theorem doRequest_retries_exhausted (N : Nat) (outcome : Nat → AttemptResult)
    (cancels : Nat → Bool)
    (hr : ∀ i, i ≤ N → retryableOutcome (outcome i) = true)
    (hc : ∀ i, i < N → cancels i = false) :
    doRequest N outcome cancels =
      (.exhausted (N + 1) (some (errOf (outcome N))), N + 1) := by
  unfold doRequest
  have := doRequestFrom_exhausts outcome cancels N (N + 1) 0 none 0 (by omega) (by omega)
    (fun i _ hi => hr i hi) (fun i _ hi => hc i hi)
  simpa using this

/-- Witness for C1: a server that always answers 500 with `maxRetries = 2`
gives exactly 3 attempts and `exhausted 3` wrapping `HTTP 500`. -/
theorem doRequest_retries_exhausted_witness :
    doRequest 2 (fun _ => .resp 500) (fun _ => false) =
      (.exhausted 3 (some (.httpStatus 500)), 3) :=
  doRequest_retries_exhausted 2 _ _ (fun _ _ => rfl) (fun _ _ => rfl)

/-- **C3.** Explicit caller cancellation is never retried:
`isRetryableError` returns `false` for `context.Canceled`, and when the
cancellation signal fires during the backoff wait after attempt `j`,
`doRequest` aborts the wait and returns `ctx.Err()` (the cancellation cause,
modelled `ctxDone`) — by the stated equality, never a retries-exhausted
error. -/
theorem cancellation_never_retried :
    isRetryableError .canceled = false ∧
    ∀ (N : Nat) (outcome : Nat → AttemptResult) (cancels : Nat → Bool) (j : Nat),
      j < N →
      (∀ i, i ≤ j → retryableOutcome (outcome i) = true) →
      (∀ i, i < j → cancels i = false) →
      cancels j = true →
      doRequest N outcome cancels = (.ctxDone, j + 1) := by
  refine ⟨rfl, ?_⟩
  intro N outcome cancels j hj hr hc hcanc
  unfold doRequest
  obtain ⟨le', h⟩ := doRequestFrom_reach outcome cancels N j 0 j none 0 rfl (by omega)
    (by omega) (fun i _ hi => hr i (le_of_lt hi)) (fun i _ hi => hc i hi)
  rw [h, doRequestFrom_cancel outcome cancels N j le' (0 + j) hj (hr j le_rfl) hcanc]
  simp

/-- Witness for C3: with one retry allowed and cancellation firing during
the first backoff wait, the result is `ctxDone` after exactly 1 attempt. -/
theorem cancellation_never_retried_witness :
    isRetryableError .canceled = false ∧
    doRequest 1 (fun _ => .resp 500) (fun _ => true) = (.ctxDone, 1) :=
  ⟨cancellation_never_retried.1,
    cancellation_never_retried.2 1 _ _ 0 (by decide) (fun _ _ => rfl)
      (fun i hi => absurd hi (Nat.not_lt_zero i)) rfl⟩

/-- **C4.** `isRetryableStatusCode` is true for exactly 429, 500, 502, 503
and 504, and on an attempt whose response carries a non-retryable status
code `doRequest` returns that response immediately with no error
(`success`) having performed no further attempts (`j + 1` in total). -/
theorem retryable_status_classification :
    (∀ code : Nat, isRetryableStatusCode code = true ↔
      (code = 429 ∨ code = 500 ∨ code = 502 ∨ code = 503 ∨ code = 504)) ∧
    ∀ (N : Nat) (outcome : Nat → AttemptResult) (cancels : Nat → Bool) (j code : Nat),
      j ≤ N →
      (∀ i, i < j → retryableOutcome (outcome i) = true) →
      (∀ i, i < j → cancels i = false) →
      outcome j = .resp code →
      isRetryableStatusCode code = false →
      doRequest N outcome cancels = (.success code, j + 1) := by
  constructor
  · intro code
    simp only [isRetryableStatusCode, Bool.or_eq_true, beq_iff_eq]
    tauto
  · intro N outcome cancels j code hj hr hc ho hnr
    unfold doRequest
    obtain ⟨le', h⟩ := doRequestFrom_reach outcome cancels N j 0 j none 0 rfl (by omega) hj
      (fun i _ hi => hr i hi) (fun i _ hi => hc i hi)
    rw [h, doRequestFrom_success outcome cancels N j le' (0 + j) code hj ho hnr]
    simp

/-- Witness for C4 at code 429, and a run whose second attempt returns 404:
the 404 response is returned at once after 2 attempts. -/
theorem retryable_status_classification_witness :
    (isRetryableStatusCode 429 = true ↔
      ((429 : Nat) = 429 ∨ (429 : Nat) = 500 ∨ (429 : Nat) = 502 ∨
        (429 : Nat) = 503 ∨ (429 : Nat) = 504)) ∧
    doRequest 3 (fun i => if i = 0 then .resp 500 else .resp 404) (fun _ => false) =
      (.success 404, 2) :=
  ⟨retryable_status_classification.1 429,
    retryable_status_classification.2 3 _ _ 1 404 (by decide)
      (fun i hi => by
        have : i = 0 := by omega
        subst this
        rfl)
      (fun _ _ => rfl) rfl (by decide)⟩



/-- **C2 counterexample.** The 5-byte body `{"a":` is strictly smaller than
the 100-byte ceiling and is truncated JSON (the decoder reports unexpected
end-of-stream), yet `handleResponse` returns the size-limit-exceeded error,
not an ordinary malformed-JSON decode error — refuting the claim that every
malformed or truncated body below the ceiling gets the ordinary decode
error. -/
theorem handleResponse_small_truncated_counterexample :
    ("\x7b\"a\":").data.length < 100 ∧
    jsonDecodeValue ("\x7b\"a\":").data = .error .unexpEof ∧
    handleResponse 100 false (fun _ => none) 200 ("\x7b\"a\":").data
      (some (fun _ => true)) = .sizeExceeded 100 ∧
    HandleResult.sizeExceeded 100 ≠ HandleResult.decodeFailed :=
  ⟨by decide, rfl, rfl, by decide⟩

/-- **C2 amended.** `handleResponse` returns the size-limit-exceeded error
exactly when JSON decoding of the (already ceiling-truncated) 2xx body
reports end-of-stream — `io.EOF` or `io.ErrUnexpectedEOF` — regardless of
whether the body actually exceeded `maxResponseSize`. -/
theorem handleResponse_size_classification (maxSize : Nat)
    (gunzip : List Char → Option (List Char)) (status : Nat) (body : List Char)
    (accepts : JValue → Bool) (h2 : 200 ≤ status) (h3 : status < 300) :
    handleResponse maxSize false gunzip status body (some accepts) = .sizeExceeded maxSize ↔
      (jsonDecodeValue (body.take maxSize) = .error .eof ∨
       jsonDecodeValue (body.take maxSize) = .error .unexpEof) := by
  unfold handleResponse
  have hs : ¬ (status < 200 ∨ 300 ≤ status) := by omega
  simp only [Bool.false_eq_true, if_false, if_neg hs]
  cases hd : jsonDecodeValue (body.take maxSize) with
  | ok v =>
    by_cases ha : accepts v = true <;>
      simp [hd, ha]
  | error e =>
    cases e <;> simp [hd]

/-- Witness for amended C2: the body `{"a":1}` under a 4-byte ceiling is
truncated to `{"a"`, whose decode hits unexpected end-of-stream, so the
size-limit-exceeded error is returned. -/
theorem handleResponse_size_classification_witness :
    (200 : Nat) ≤ 200 ∧ (200 : Nat) < 300 ∧
    (handleResponse 4 false (fun _ => none) 200 ("\x7b\"a\":1\x7d").data
        (some (fun _ => true)) = .sizeExceeded 4 ↔
      (jsonDecodeValue (("\x7b\"a\":1\x7d").data.take 4) = .error .eof ∨
       jsonDecodeValue (("\x7b\"a\":1\x7d").data.take 4) = .error .unexpEof)) :=
  ⟨by decide, by decide,
    handleResponse_size_classification 4 (fun _ => none) 200 ("\x7b\"a\":1\x7d").data
      (fun _ => true) (by decide) (by decide)⟩
/-- **C5.** In `handleResponse` the byte ceiling is applied after
decompression: for a response declaring gzip content-encoding the
decompressor receives the raw body and the response behaves exactly like an
unencoded response whose body is the decompressed stream; and the result
depends only on the first `maxResponseSize` bytes of that decompressed
stream, so the ceiling bounds the decompressed payload even when the
compressed wire size is smaller. -/
theorem handleResponse_gzip_layering (maxSize : Nat)
    (gunzip : List Char → Option (List Char)) (status : Nat) (body dec : List Char)
    (targetAccepts : Option (JValue → Bool)) (h : gunzip body = some dec) :
    handleResponse maxSize true gunzip status body targetAccepts =
      handleResponse maxSize false gunzip status dec targetAccepts ∧
    ∀ dec', dec.take maxSize = dec'.take maxSize →
      handleResponse maxSize false gunzip status dec targetAccepts =
        handleResponse maxSize false gunzip status dec' targetAccepts := by
  constructor
  · unfold handleResponse
    simp [h]
  · intro dec' htake
    unfold handleResponse
    simp only [Bool.false_eq_true, if_false]
    rw [htake]

/-- Witness for C5: a 1-byte compressed body decompressing to 50 bytes of
`[` under a 3-byte ceiling is truncated at the ceiling and classified as
size-limit-exceeded. -/
theorem handleResponse_gzip_layering_witness :
    ((fun _ => some (List.replicate 50 '[')) : List Char → Option (List Char)) ("x").data =
      some (List.replicate 50 '[') ∧
    handleResponse 3 true (fun _ => some (List.replicate 50 '[')) 200 ("x").data
        (some (fun _ => true)) =
      handleResponse 3 false (fun _ => some (List.replicate 50 '[')) 200
        (List.replicate 50 '[') (some (fun _ => true)) ∧
    handleResponse 3 true (fun _ => some (List.replicate 50 '[')) 200 ("x").data
        (some (fun _ => true)) = .sizeExceeded 3 ∧
    ("x").data.length < 3 ∧ 3 < (List.replicate 50 '[').length :=
  ⟨rfl,
    (handleResponse_gzip_layering 3 (fun _ => some (List.replicate 50 '[')) 200 ("x").data
      (List.replicate 50 '[') (some (fun _ => true)) rfl).1,
    rfl, by decide, by decide⟩

/-- **C9.** For every response with a status code outside `[200, 300)`,
`handleResponse` never returns a nil error, and (whenever the body stream is
obtained) it returns the structured API error carrying the server-provided
code and message when that decode succeeds, and otherwise the synthesized
error carrying the raw status code. -/
theorem handleResponse_non2xx (maxSize : Nat) (gzipEncoded : Bool)
    (gunzip : List Char → Option (List Char)) (status : Nat) (body : List Char)
    (targetAccepts : Option (JValue → Bool)) (h : status < 200 ∨ 300 ≤ status) :
    handleResponse maxSize gzipEncoded gunzip status body targetAccepts ≠ .success ∧
    ∀ stream, (if gzipEncoded then gunzip body else some body) = some stream →
      handleResponse maxSize gzipEncoded gunzip status body targetAccepts =
        (match decodeAPIError (stream.take maxSize) with
         | some (c, m) => .apiError c m
         | none => .statusFallback status) := by
  constructor
  · unfold handleResponse
    cases hg : (if gzipEncoded then gunzip body else some body) with
    | none => simp
    | some stream =>
      simp only [if_pos h]
      cases hd : decodeAPIError (stream.take maxSize) with
      | none => simp
      | some p =>
        obtain ⟨c, m⟩ := p
        simp
  · intro stream hg
    unfold handleResponse
    rw [hg]
    simp only [if_pos h]

/-- Witness for C9: a 404 with a structured JSON error body surfaces the
server code/message, and a 404 with a non-JSON body falls back to the
status-carrying error. -/
theorem handleResponse_non2xx_witness :
    handleResponse 100 false (fun _ => none) 404
        ("\x7b\"code\":\"NF\",\"message\":\"gone\"\x7d").data (some (fun _ => true)) ≠
      .success ∧
    handleResponse 100 false (fun _ => none) 404
        ("\x7b\"code\":\"NF\",\"message\":\"gone\"\x7d").data (some (fun _ => true)) =
      .apiError "NF" "gone" ∧
    handleResponse 100 false (fun _ => none) 404 ("oops").data (some (fun _ => true)) =
      .statusFallback 404 :=
  ⟨(handleResponse_non2xx 100 false (fun _ => none) 404
      ("\x7b\"code\":\"NF\",\"message\":\"gone\"\x7d").data (some (fun _ => true))
      (by decide)).1,
    rfl, rfl⟩
theorem matchFmt_recon (r f : List Char) (h : matchFmt r = some f) : r = optF f := by
  rw [matchFmt.eq_def] at h
  split at h
  · cases h
    rfl
  · split at h
    · cases h
    · cases h
      simp [optF, *]
  · cases h

theorem matchLayerFmt_recon (r l f : List Char) (h : matchLayerFmt r = some (l, f)) :
    r = optL l ++ optF f := by
  rw [matchLayerFmt.eq_def] at h
  split at h
  · cases h
    rfl
  · rename_i u
    simp only at h
    split at h
    · cases h
    · rename_i hl
      rcases Option.map_eq_some'.mp h with ⟨f', hf, hpair⟩
      cases hpair
      have hu := List.takeWhile_append_dropWhile
        (p := fun c => c != '.') (l := u)
      have hd := matchFmt_recon _ _ hf
      conv_lhs => rw [← hu]
      rw [hd]
      simp [optL, hl]
  · rename_i u
    split at h
    · cases h
    · cases h
      simp [optL, optF, *]
  · cases h
theorem matchRest_recon (r v l f : List Char) (h : matchRest r = some (v, l, f)) :
    r = optV v ++ (optL l ++ optF f) := by
  rw [matchRest.eq_def] at h
  split at h
  · rename_i u
    simp only at h
    split at h
    · cases h
    · rename_i hv
      rcases Option.map_eq_some'.mp h with ⟨lf, hlf, hpair⟩
      cases hpair
      have hu := List.takeWhile_append_dropWhile
        (p := fun c => c != ':' && c != '.') (l := u)
      have hd := matchLayerFmt_recon _ _ _ (by rw [hlf])
      conv_lhs => rw [← hu]
      rw [hd]
      simp [optV, hv]
  · rename_i r hr
    rcases Option.map_eq_some'.mp h with ⟨lf, hlf, hpair⟩
    cases hpair
    have hd := matchLayerFmt_recon _ _ _ (by rw [hlf])
    rw [hd]
    simp [optV]

theorem shrink_recon (idRev : List Char) :
    ∀ (rest id v l f : List Char), shrink idRev rest = some (id, v, l, f) →
      idRev.reverse ++ rest = id ++ (optV v ++ (optL l ++ optF f)) ∧ id ≠ [] := by
  induction idRev with
  | nil =>
    intro rest id v l f h
    simp [shrink] at h
  | cons c idRev' ih =>
    intro rest id v l f h
    rw [shrink] at h
    split at h
    · rename_i v' l' f' hm
      cases h
      refine ⟨?_, by simp⟩
      rw [← matchRest_recon _ _ _ _ hm]
    · rename_i hm
      have := ih (c :: rest) id v l f h
      refine ⟨?_, this.2⟩
      rw [← this.1]
      simp

theorem parseTail_recon (t id v l f : List Char) (h : parseTail t = some (id, v, l, f)) :
    t = id ++ (optV v ++ (optL l ++ optF f)) ∧ id ≠ [] := by
  unfold parseTail at h
  have := shrink_recon _ _ _ _ _ _ h
  rw [List.reverse_reverse, List.takeWhile_append_dropWhile] at this
  exact this
theorem stripLit_recon (lit : List Char) :
    ∀ (cs r : List Char), stripLit lit cs = some r → cs = lit ++ r := by
  induction lit with
  | nil =>
    intro cs r h
    simp [stripLit] at h
    simp [h]
  | cons l ls ih =>
    intro cs r h
    cases cs with
    | nil => simp [stripLit] at h
    | cons c cs' =>
      rw [stripLit] at h
      split at h
      · rename_i hc
        subst hc
        simp [ih cs' r h]
      · cases h


theorem splitColon_recon (cs g r : List Char) (h : splitColon cs = some (g, r)) :
    cs = g ++ ':' :: r ∧ g ≠ [] := by
  unfold splitColon at h
  split at h
  · rename_i r' hd
    by_cases hg : List.takeWhile (fun c => c != ':') cs = []
    · simp [hg] at h
    · simp only [hg, if_false, Option.some_inj, Prod.mk.injEq] at h
      obtain ⟨h1, h2⟩ := h
      subst h1 h2
      refine ⟨?_, hg⟩
      conv_lhs => rw [← List.takeWhile_append_dropWhile (p := fun c => c != ':') (l := cs)]
      rw [hd]
  · cases h

theorem airRegexMatch_recon (cs e ty src id v l f : List Char)
    (h : airRegexMatch cs = some (e, ty, src, id, v, l, f)) :
    cs = "urn:air:".data ++ e ++ ':' :: (ty ++ ':' :: (src ++ ':' ::
      (id ++ (optV v ++ (optL l ++ optF f))))) ∧
    e ≠ [] ∧ ty ≠ [] ∧ src ≠ [] ∧ id ≠ [] := by
  unfold airRegexMatch at h
  cases h0 : stripLit "urn:air:".data cs with
  | none => rw [h0] at h; cases h
  | some r0 =>
    rw [h0] at h
    simp only [Option.bind_eq_bind, Option.some_bind] at h
    cases h1 : splitColon r0 with
    | none => rw [h1] at h; cases h
    | some p1 =>
      obtain ⟨e', r1⟩ := p1
      rw [h1] at h
      simp only [Option.bind_eq_bind, Option.some_bind] at h
      cases h2 : splitColon r1 with
      | none => rw [h2] at h; cases h
      | some p2 =>
        obtain ⟨ty', r2⟩ := p2
        rw [h2] at h
        simp only [Option.bind_eq_bind, Option.some_bind] at h
        cases h3 : splitColon r2 with
        | none => rw [h3] at h; cases h
        | some p3 =>
          obtain ⟨src', r3⟩ := p3
          rw [h3] at h
          simp only [Option.bind_eq_bind, Option.some_bind] at h
          cases h4 : parseTail r3 with
          | none => rw [h4] at h; cases h
          | some p4 =>
            obtain ⟨id', v', l', f'⟩ := p4
            rw [h4] at h
            simp only [Option.bind_eq_bind, Option.some_bind, Option.pure_def, Option.some_inj,
              Prod.mk.injEq] at h
            obtain ⟨he, hty, hsrc, hid, hv, hl, hf⟩ := h
            subst he hty hsrc hid hv hl hf
            obtain ⟨hr3, hid0⟩ := parseTail_recon _ _ _ _ _ h4
            obtain ⟨hr2, hsrc0⟩ := splitColon_recon _ _ _ h3
            obtain ⟨hr1, hty0⟩ := splitColon_recon _ _ _ h2
            obtain ⟨hr0, he0⟩ := splitColon_recon _ _ _ h1
            refine ⟨?_, he0, hty0, hsrc0, hid0⟩
            rw [stripLit_recon _ _ _ h0, hr0, hr1, hr2, hr3]
            simp
theorem mk_eq_empty (v : List Char) : (String.mk v = "") ↔ v = [] := by
  constructor
  · intro h
    have := congrArg String.data h
    simpa using this
  · intro h
    subst h
    rfl

theorem toAIRString_data (e ty src id v l f : List Char) (s : String) :
    (AIR.toAIRString ⟨String.mk e, String.mk ty, String.mk src, String.mk id,
      String.mk v, String.mk l, String.mk f, s⟩).data =
    "urn:air:".data ++ e ++ ':' :: (ty ++ ':' :: (src ++ ':' ::
      (id ++ (optV v ++ (optL l ++ optF f))))) := by
  have hda : ∀ x y : String, (x ++ y).data = x.data ++ y.data := fun _ _ => rfl
  have hmk : ∀ xs : List Char, (String.mk xs).data = xs := fun _ => rfl
  unfold AIR.toAIRString optV optL optF
  by_cases hv : v = [] <;> by_cases hl : l = [] <;> by_cases hf : f = [] <;>
    simp [hv, hl, hf, ne_eq, mk_eq_empty, hda, hmk, List.append_assoc]

theorem ParseAIR_ok_inv (s : String) (a : AIR) (h : ParseAIR s = .ok a) :
    s ≠ "" ∧ ∃ e ty src id v l f,
      airRegexMatch s.data = some (e, ty, src, id, v, l, f) ∧
      a = ⟨String.mk e, String.mk ty, String.mk src, String.mk id,
           String.mk v, String.mk l, String.mk f, s⟩ ∧
      a.Validate = none := by
  unfold ParseAIR at h
  split at h
  · cases h
  · rename_i hs
    refine ⟨hs, ?_⟩
    split at h
    · cases h
    · rename_i e ty src id v l f hm
      dsimp only at h
      split at h
      · cases h
      · rename_i hval
        cases h
        exact ⟨e, ty, src, id, v, l, f, hm, rfl, hval⟩

/-- **C6.** For every string `s` on which `ParseAIR` succeeds with AIR `a`,
`ParseAIR (a.String())` also succeeds and yields an AIR structurally
`Equal` to `a` (all seven grammar fields equal): serialization followed by
re-parsing is an idempotent canonicalization.  (In fact `a.String() = s`
exactly, since the anchored pattern copies every consumed character into
some group and `String()` re-emits them in grammar order.) -/
theorem ParseAIR_roundtrip (s : String) (a : AIR) (h : ParseAIR s = .ok a) :
    ∃ a', ParseAIR a.toAIRString = .ok a' ∧ a.Equal a' = true := by
  obtain ⟨hs, e, ty, src, id, v, l, f, hm, ha, hval⟩ := ParseAIR_ok_inv s a h
  have hstr : a.toAIRString = s := by
    apply String.ext
    rw [ha, toAIRString_data]
    exact (airRegexMatch_recon s.data e ty src id v l f hm).1.symm
  rw [hstr]
  refine ⟨a, h, ?_⟩
  simp [AIR.Equal]

/-- Witness for C6 on the fully-populated AIR
`urn:air:sd1:model:civitai:2421@43533:layer1.safetensors`. -/
theorem ParseAIR_roundtrip_witness :
    ∃ a', ParseAIR (AIR.toAIRString
        ⟨"sd1", "model", "civitai", "2421", "43533", "layer1", "safetensors",
         "urn:air:sd1:model:civitai:2421@43533:layer1.safetensors"⟩) = .ok a' ∧
      AIR.Equal
        ⟨"sd1", "model", "civitai", "2421", "43533", "layer1", "safetensors",
         "urn:air:sd1:model:civitai:2421@43533:layer1.safetensors"⟩ a' = true :=
  ParseAIR_roundtrip "urn:air:sd1:model:civitai:2421@43533:layer1.safetensors" _ rfl
/-- **C8 counterexample.** The empty string does not match the anchored
grammar pattern, yet `ParseAIR` returns the distinct cannot-be-empty error,
not the format error — refuting the claim that every non-matching input
yields the format error (and that there are exactly two error kinds). -/
theorem ParseAIR_empty_counterexample :
    airRegexMatch ("" : String).data = none ∧
    ParseAIR "" = .error .emptyInput ∧
    AIRErr.emptyInput ≠ AIRErr.invalidFormat "" :=
  ⟨rfl, rfl, by decide⟩

/-- **C8 amended.** `ParseAIR` fails with the format error for every
non-empty input that does not match the anchored pattern (the empty string
gets its own distinct error), with the validation error for every input
that matches the pattern but whose mandatory field fails its
enumerated-vocabulary check, and the two kinds are distinguishable by the
caller. -/
theorem ParseAIR_error_kinds :
    (∀ s : String, s ≠ "" → airRegexMatch s.data = none →
      ParseAIR s = .error (.invalidFormat s)) ∧
    (∀ (s : String) (e ty src id v l f : List Char) (msg : String),
      airRegexMatch s.data = some (e, ty, src, id, v, l, f) →
      AIR.Validate ⟨String.mk e, String.mk ty, String.mk src, String.mk id,
        String.mk v, String.mk l, String.mk f, s⟩ = some msg →
      ParseAIR s = .error (.invalidAIR msg)) ∧
    (∀ (s msg : String), AIRErr.invalidFormat s ≠ AIRErr.invalidAIR msg) := by
  refine ⟨?_, ?_, ?_⟩
  · intro s hs hm
    unfold ParseAIR
    rw [if_neg hs, hm]
  · intro s e ty src id v l f msg hm hval
    have hs : s ≠ "" := by
      intro he
      subst he
      exact Option.noConfusion hm
    unfold ParseAIR
    rw [if_neg hs, hm]
    dsimp only
    rw [hval]
  · intro s msg h
    exact AIRErr.noConfusion h

/-- Witness for C8: `ParseAIR "not-a-valid-air"` gives the format error and
`ParseAIR "urn:air:bogus:model:civitai:1"` the validation error. -/
theorem ParseAIR_error_kinds_witness :
    ParseAIR "not-a-valid-air" = .error (.invalidFormat "not-a-valid-air") ∧
    ParseAIR "urn:air:bogus:model:civitai:1" =
      .error (.invalidAIR "unsupported ecosystem: bogus") :=
  ⟨ParseAIR_error_kinds.1 "not-a-valid-air" (by decide) rfl,
   ParseAIR_error_kinds.2.1 "urn:air:bogus:model:civitai:1" "bogus".data "model".data
     "civitai".data "1".data [] [] [] "unsupported ecosystem: bogus" rfl rfl⟩

theorem shrink_mem (idRev : List Char) :
    ∀ (rest id v l f : List Char), shrink idRev rest = some (id, v, l, f) →
      '@' ∈ rest → '@' ∈ optV v ++ (optL l ++ optF f) := by
  induction idRev with
  | nil =>
    intro rest id v l f h _
    simp [shrink] at h
  | cons c idRev' ih =>
    intro rest id v l f h hmem
    rw [shrink] at h
    split at h
    · rename_i v' l' f' hm
      cases h
      rw [← matchRest_recon _ _ _ _ hm]
      exact hmem
    · exact ih (c :: rest) id v l f h (List.mem_cons_of_mem c hmem)

theorem parseTail_no_at (t id v l f : List Char) (h : parseTail t = some (id, v, l, f))
    (hv : v = []) : (l = [] ∧ f = []) ∨ '@' ∈ l ∨ '@' ∈ f := by
  subst hv
  unfold parseTail at h
  cases hd : t.dropWhile (fun c => c != '@') with
  | nil =>
    rw [hd] at h
    cases hr : (t.takeWhile (fun c => c != '@')).reverse with
    | nil =>
      rw [hr] at h
      simp [shrink] at h
    | cons c rev' =>
      rw [hr, shrink] at h
      have hm : matchRest ([] : List Char) = some ([], [], []) := rfl
      rw [hm] at h
      simp only [Option.some_inj, Prod.mk.injEq] at h
      exact Or.inl ⟨h.2.2.1.symm, h.2.2.2.symm⟩
  | cons c w =>
    have hc : c = '@' := by
      have := List.head_dropWhile_not (fun c => c != '@') t
      rw [hd] at this
      simp at this
      exact this
    rw [hd] at h
    have hmem : '@' ∈ c :: w := by
      rw [hc]
      exact List.mem_cons_self _ _
    have hres := shrink_mem _ _ _ _ _ _ h hmem
    have hres' : '@' ∈ optL l ++ optF f := by simpa [optV] using hres
    rcases List.mem_append.mp hres' with h1 | h2
    · refine Or.inr (Or.inl ?_)
      by_cases hl : l = []
      · simp [optL, hl] at h1
      · rw [optL, if_neg hl] at h1
        rcases List.mem_cons.mp h1 with h3 | h3
        · exact absurd h3 (by decide)
        · exact h3
    · refine Or.inr (Or.inr ?_)
      by_cases hf : f = []
      · simp [optF, hf] at h2
      · rw [optF, if_neg hf] at h2
        rcases List.mem_cons.mp h2 with h3 | h3
        · exact absurd h3 (by decide)
        · exact h3

theorem airRegexMatch_parseTail (cs e ty src id v l f : List Char)
    (h : airRegexMatch cs = some (e, ty, src, id, v, l, f)) :
    ∃ t, parseTail t = some (id, v, l, f) := by
  unfold airRegexMatch at h
  cases h0 : stripLit "urn:air:".data cs with
  | none => rw [h0] at h; cases h
  | some r0 =>
    rw [h0] at h
    simp only [Option.bind_eq_bind, Option.some_bind] at h
    cases h1 : splitColon r0 with
    | none => rw [h1] at h; cases h
    | some p1 =>
      obtain ⟨e', r1⟩ := p1
      rw [h1] at h
      simp only [Option.bind_eq_bind, Option.some_bind] at h
      cases h2 : splitColon r1 with
      | none => rw [h2] at h; cases h
      | some p2 =>
        obtain ⟨ty', r2⟩ := p2
        rw [h2] at h
        simp only [Option.bind_eq_bind, Option.some_bind] at h
        cases h3 : splitColon r2 with
        | none => rw [h3] at h; cases h
        | some p3 =>
          obtain ⟨src', r3⟩ := p3
          rw [h3] at h
          simp only [Option.bind_eq_bind, Option.some_bind] at h
          cases h4 : parseTail r3 with
          | none => rw [h4] at h; cases h
          | some p4 =>
            obtain ⟨id', v', l', f'⟩ := p4
            rw [h4] at h
            simp only [Option.bind_eq_bind, Option.some_bind, Option.pure_def,
              Option.some_inj, Prod.mk.injEq] at h
            obtain ⟨_, _, _, hid, hv, hl, hf⟩ := h
            subst hid hv hl hf
            exact ⟨r3, h4⟩

/-- **C10 counterexample.** `ParseAIR "urn:air:sd1:model:civitai:1:l@"`
succeeds with `Layer = "l@"` non-empty and `Version` empty: when the greedy
ID group cannot absorb the whole tail (here because of the trailing `@`
that no version group can match), backtracking lets a layer be recognized
without any version segment — refuting the claimed invariant. -/
theorem ParseAIR_layer_without_version_counterexample :
    ParseAIR "urn:air:sd1:model:civitai:1:l@" = .ok
      ⟨"sd1", "model", "civitai", "1", "", "l@", "",
       "urn:air:sd1:model:civitai:1:l@"⟩ ∧
    AIR.Layer ⟨"sd1", "model", "civitai", "1", "", "l@", "",
       "urn:air:sd1:model:civitai:1:l@"⟩ ≠ "" ∧
    AIR.Version ⟨"sd1", "model", "civitai", "1", "", "l@", "",
       "urn:air:sd1:model:civitai:1:l@"⟩ = "" :=
  ⟨rfl, by decide, rfl⟩

/-- **C10 amended.** Every AIR returned by `ParseAIR` with an empty
`Version` has `Layer` and `Format` both empty — the greedy ID group absorbs
`:` and `.` characters — unless the character `@` occurs in `Layer` or in
`Format` (the only way backtracking can split the tail without a version
segment). -/
theorem ParseAIR_optional_fields (s : String) (a : AIR) (h : ParseAIR s = .ok a)
    (hv : a.Version = "") :
    (a.Layer = "" ∧ a.Format = "") ∨ '@' ∈ a.Layer.data ∨ '@' ∈ a.Format.data := by
  obtain ⟨hs, e, ty, src, id, v, l, f, hm, ha, hval⟩ := ParseAIR_ok_inv s a h
  obtain ⟨t, ht⟩ := airRegexMatch_parseTail _ _ _ _ _ _ _ _ hm
  subst ha
  have hv0 : v = [] := (mk_eq_empty v).mp hv
  rcases parseTail_no_at t id v l f ht hv0 with ⟨h1, h2⟩ | h1 | h1
  · exact Or.inl ⟨(mk_eq_empty l).mpr h1, (mk_eq_empty f).mpr h2⟩
  · exact Or.inr (Or.inl h1)
  · exact Or.inr (Or.inr h1)

/-- Witness for amended C10 at the input whose parse has an empty version:
its layer `l@` indeed contains `@`. -/
theorem ParseAIR_optional_fields_witness :
    (AIR.Layer ⟨"sd1", "model", "civitai", "1", "", "l@", "",
        "urn:air:sd1:model:civitai:1:l@"⟩ = "" ∧
      AIR.Format ⟨"sd1", "model", "civitai", "1", "", "l@", "",
        "urn:air:sd1:model:civitai:1:l@"⟩ = "") ∨
    '@' ∈ (AIR.Layer ⟨"sd1", "model", "civitai", "1", "", "l@", "",
        "urn:air:sd1:model:civitai:1:l@"⟩).data ∨
    '@' ∈ (AIR.Format ⟨"sd1", "model", "civitai", "1", "", "l@", "",
        "urn:air:sd1:model:civitai:1:l@"⟩).data :=
  ParseAIR_optional_fields "urn:air:sd1:model:civitai:1:l@" _ rfl rfl
end Civitai
